import Mathlib

/-!
Shallow embedding of the dailyreminder recurrence / notification engine.

Sources embedded:
- RecurrenceService (src/unnamed/part_004): calculateUpcomingOccurrences,
  getNextOccurrence, getEventsNeedingNotification, validateRecurrenceSettings.
- EmailService (src/src/services/emailService.js): sendEmail retry loop,
  sendEventReminder / sendDailyDigest history logging.
- NotificationScheduler (src/src/services/notificationScheduler.js): cron tick
  handlers and sendImmediateEventNotification.
- Event model (src/unnamed/part_005): findAll filters on active = true.

The date arithmetic of moment-timezone is modelled by a fixed-offset Gregorian
calendar: an instant is a (year, month, day, minute-of-day) tuple in the single
configured zone, and hour arithmetic is linear over minutes.  DST transitions
are outside the scope of every claim checked here.
-/

namespace DailyReminder

/-- Gregorian leap-year rule, as used by moment-timezone. -/
def isLeap (y : Nat) : Bool :=
  (y % 4 == 0 && y % 100 != 0) || (y % 400 == 0)

/-- One if `y` is a leap year, zero otherwise. -/
def leapDays (y : Nat) : Nat := if isLeap y then 1 else 0

/-- Number of days of month `m` (1-based) in year `y`. -/
def daysInMonth (y m : Nat) : Nat :=
  if m == 2 then (if isLeap y then 29 else 28)
  else if m == 4 || m == 6 || m == 9 || m == 11 then 30
  else 31

/-- Days of year `y` that precede the first day of month `m` (1-based). -/
def daysBeforeMonth (y m : Nat) : Nat :=
  match m with
  | 1 => 0
  | 2 => 31
  | 3 => 59 + leapDays y
  | 4 => 90 + leapDays y
  | 5 => 120 + leapDays y
  | 6 => 151 + leapDays y
  | 7 => 181 + leapDays y
  | 8 => 212 + leapDays y
  | 9 => 243 + leapDays y
  | 10 => 273 + leapDays y
  | 11 => 304 + leapDays y
  | 12 => 334 + leapDays y
  | _ => 365 + leapDays y

/-- Days in years `0, …, y-1` of the proleptic Gregorian calendar:
365 per year plus one per leap year among them. -/
def daysBeforeYear (y : Nat) : Nat :=
  365 * y + (y + 3) / 4 - (y + 99) / 100 + (y + 399) / 400

/-- A zone-local instant: calendar date plus minute of day. -/
structure DateTime where
  year : Nat
  month : Nat
  day : Nat
  minute : Nat
deriving DecidableEq, Repr

/-- A well-formed instant: month 1..12, day within the month, minute of day. -/
def DateTime.Valid (d : DateTime) : Prop :=
  1 ≤ d.month ∧ d.month ≤ 12 ∧ 1 ≤ d.day ∧ d.day ≤ daysInMonth d.year d.month ∧
    d.minute < 1440

instance (d : DateTime) : Decidable d.Valid := by
  unfold DateTime.Valid; infer_instance

/-- Day index of an instant on the linear day scale. -/
def toDays (d : DateTime) : Nat :=
  daysBeforeYear d.year + daysBeforeMonth d.year d.month + (d.day - 1)

/-- Minute index of an instant on the linear time scale; all comparisons of
moment objects are modelled as comparisons of this value. -/
def toMinutes (d : DateTime) : Nat :=
  1440 * toDays d + d.minute

/-- Step one calendar day forward. -/
def succDay (d : DateTime) : DateTime :=
  if d.day < daysInMonth d.year d.month then
    { d with day := d.day + 1 }
  else if d.month < 12 then
    { d with month := d.month + 1, day := 1 }
  else
    { year := d.year + 1, month := 1, day := 1, minute := d.minute }

/-- Model of moment's `add(n, 'days')`. -/
def addDays (d : DateTime) : Nat → DateTime
  | 0 => d
  | n + 1 => succDay (addDays d n)

/-- Model of moment's `add(v, 'months')`: month overflow carries into the year
and the day is clamped to the length of the target month. -/
def addMonths (d : DateTime) (v : Nat) : DateTime :=
  let t := (d.month - 1) + v
  let y := d.year + t / 12
  let m := t % 12 + 1
  { year := y, month := m, day := min d.day (daysInMonth y m), minute := d.minute }

/-- Model of moment's `add(v, 'years')`: the day is clamped to the length of
the target month (Feb 29 anchors clamp to Feb 28 in non-leap years). -/
def addYears (d : DateTime) (v : Nat) : DateTime :=
  { year := d.year + v, month := d.month,
    day := min d.day (daysInMonth (d.year + v) d.month), minute := d.minute }

/-- Model of moment's `.year(y)` setter, which clamps the day of month. -/
def setYear (d : DateTime) (y : Nat) : DateTime :=
  { year := y, month := d.month, day := min d.day (daysInMonth y d.month),
    minute := d.minute }

/-- Model of moment's `add(v, unit)` for the recurrence units; moment treats an
unrecognized unit as a no-op. -/
def addUnit (d : DateTime) (v : Nat) (u : String) : DateTime :=
  if u == "days" then addDays d v
  else if u == "months" then addMonths d v
  else if u == "years" then addYears d v
  else d

/-- Row of the events table (src/unnamed/part_005).  `recurrence_value` and
`recurrence_unit` are nullable columns; JavaScript truthiness tests on them are
modelled by `truthyNat` / `truthyStr`. -/
structure Event where
  id : Nat
  title : String
  description : String
  event_date : DateTime
  recurrence_type : String
  recurrence_value : Option Nat
  recurrence_unit : Option String
  active : Bool
deriving DecidableEq, Repr

/-- JavaScript truthiness of a nullable number: null and 0 are falsy. -/
def truthyNat : Option Nat → Bool
  | none => false
  | some n => n != 0

/-- JavaScript truthiness of a nullable string: null and the empty string are
falsy. -/
def truthyStr : Option String → Bool
  | none => false
  | some s => s != ""

/-- Occurrence record pushed by `calculateUpcomingOccurrences`.  The yearly
branch adds a `yearsSinceOriginal` field and the custom-interval branch an
`intervalsSinceOriginal` field; the absent one is `none`. -/
structure Occurrence where
  date : DateTime
  title : String
  description : String
  eventId : Nat
  occurrenceNumber : Nat
  yearsSinceOriginal : Option Nat
  intervalsSinceOriginal : Option Nat
deriving DecidableEq, Repr

/-- The final `occurrences.sort((a, b) => new Date(a.date) - new Date(b.date))`
of `calculateUpcomingOccurrences`: a stable ascending sort on the date. -/
def sortByDate (l : List Occurrence) : List Occurrence :=
  l.insertionSort (fun a b => toMinutes a.date ≤ toMinutes b.date)

/-- Occurrence record of the yearly branch for loop year `year`
(part_004 lines 38-48). -/
def mkYearlyOcc (ev : Event) (year : Nat) : Occurrence :=
  { date := setYear ev.event_date year, title := ev.title,
    description := ev.description, eventId := ev.id,
    occurrenceNumber := year - ev.event_date.year + 1,
    yearsSinceOriginal := some (year - ev.event_date.year),
    intervalsSinceOriginal := none }

/-- Occurrence record of the custom-interval branch at interval count `ic`
(part_004 lines 60-68). -/
def mkCustomOcc (ev : Event) (cur : DateTime) (ic : Nat) : Occurrence :=
  { date := cur, title := ev.title, description := ev.description,
    eventId := ev.id, occurrenceNumber := ic + 1,
    yearsSinceOriginal := none, intervalsSinceOriginal := some ic }

/-- The yearly for-loop of `calculateUpcomingOccurrences` (part_004 lines
35-49): `for (year = startYear; year <= end.year && count < max; year++)`,
pushing the occurrence of `year` when it lies in `[startD, endD]` (inclusive
`isBetween`).  The `fuel` argument makes the recursion structural; the
top-level call passes `endD.year + 1 - startYear`, for which fuel exhaustion
coincides exactly with the loop condition `year <= end.year` turning false. -/
def yearlyLoop (ev : Event) (startD endD : DateTime) (maxOcc : Nat) :
    Nat → Nat → Nat → List Occurrence
  | 0, _, _ => []
  | fuel + 1, year, count =>
    if year ≤ endD.year ∧ count < maxOcc then
      if toMinutes startD ≤ toMinutes (setYear ev.event_date year) ∧
          toMinutes (setYear ev.event_date year) ≤ toMinutes endD then
        mkYearlyOcc ev year :: yearlyLoop ev startD endD maxOcc fuel (year + 1) (count + 1)
      else
        yearlyLoop ev startD endD maxOcc fuel (year + 1) count
    else []

/-- The first while-loop of the custom-interval branch (part_004 lines 55-57):
`while (currentDate.isBefore(start)) currentDate.add(value, unit)`.  The source
loop does not terminate when the interval fails to advance the date (value 0 is
excluded by validation); the fuel cutoff models that unreachable divergence. -/
def advanceToStart (startD : DateTime) (v : Nat) (u : String) :
    Nat → DateTime → DateTime
  | 0, cur => cur
  | fuel + 1, cur =>
    if toMinutes cur < toMinutes startD then
      advanceToStart startD v u fuel (addUnit cur v u)
    else cur

/-- The second while-loop of the custom-interval branch (part_004 lines 60-73):
`while (currentDate.isSameOrBefore(end) && count < max)` push, then advance.
Both `count` and `ic` increment on every iteration, so at most `maxOcc`
iterations run; the top-level call passes fuel `maxOcc + 1`, which therefore
never cuts the loop short. -/
def customLoop (ev : Event) (endD : DateTime) (v : Nat) (u : String)
    (maxOcc : Nat) : Nat → DateTime → Nat → Nat → List Occurrence
  | 0, _, _, _ => []
  | fuel + 1, cur, count, ic =>
    if toMinutes cur ≤ toMinutes endD ∧ count < maxOcc then
      mkCustomOcc ev cur ic ::
        customLoop ev endD v u maxOcc fuel (addUnit cur v u) (count + 1) (ic + 1)
    else []

/-- RecurrenceService.calculateUpcomingOccurrences (part_004 lines 6-77).
The one-off branch returns without sorting; the other branches end in the
ascending sort by date.  `maxOcc` is the `maxOccurrences` parameter, 50 at
every call site that uses the default. -/
def calculateUpcomingOccurrences (ev : Event) (startD endD : DateTime)
    (maxOcc : Nat) : List Occurrence :=
  if ev.recurrence_type == "one_off" then
    if toMinutes startD ≤ toMinutes ev.event_date ∧
        toMinutes ev.event_date ≤ toMinutes endD then
      [{ date := ev.event_date, title := ev.title, description := ev.description,
         eventId := ev.id, occurrenceNumber := 1,
         yearsSinceOriginal := none, intervalsSinceOriginal := none }]
    else []
  else if ev.recurrence_type == "yearly" then
    sortByDate (yearlyLoop ev startD endD maxOcc
      (endD.year + 1 - max startD.year ev.event_date.year)
      (max startD.year ev.event_date.year) 0)
  else if ev.recurrence_type == "custom_interval" && truthyNat ev.recurrence_value
      && truthyStr ev.recurrence_unit then
    sortByDate (customLoop ev endD (ev.recurrence_value.getD 0)
      (ev.recurrence_unit.getD "") maxOcc (maxOcc + 1)
      (advanceToStart startD (ev.recurrence_value.getD 0)
        (ev.recurrence_unit.getD "") (toMinutes startD + 1) ev.event_date)
      0 0)
  else
    sortByDate []

/-- The while-loop of the custom-interval branch of `getNextOccurrence`
(part_004 lines 105-107): keep adding intervals while `isSameOrBefore(now)`.
As with `advanceToStart`, the source diverges when the interval does not
advance the date; fuel exhaustion (returning none) models that. -/
def nextAfterNow (now : DateTime) (v : Nat) (u : String) :
    Nat → DateTime → Option DateTime
  | 0, _ => none
  | fuel + 1, cur =>
    if toMinutes cur ≤ toMinutes now then
      nextAfterNow now v u fuel (addUnit cur v u)
    else some cur

/-- RecurrenceService.getNextOccurrence (part_004 lines 80-113).  The source
reads the wall clock; here `now` is passed explicitly (injected clock). -/
def getNextOccurrence (ev : Event) (now : DateTime) : Option DateTime :=
  if ev.recurrence_type == "one_off" then
    if toMinutes now < toMinutes ev.event_date then some ev.event_date else none
  else if ev.recurrence_type == "yearly" then
    if toMinutes (setYear ev.event_date now.year) ≤ toMinutes now then
      some (addYears (setYear ev.event_date now.year) 1)
    else
      some (setYear ev.event_date now.year)
  else if ev.recurrence_type == "custom_interval" && truthyNat ev.recurrence_value
      && truthyStr ev.recurrence_unit then
    nextAfterNow now (ev.recurrence_value.getD 0) (ev.recurrence_unit.getD "")
      (toMinutes now + 1) ev.event_date
  else none

/-- RecurrenceService.validateRecurrenceSettings (part_004 lines 244-282).
The raw request parameters are nullable, so the value is an `Option Int` and
the unit an `Option String`; the body mirrors the source's truthiness checks
and early returns.  The function is total: it never raises. -/
def validateRecurrenceSettings (recurrence_type : String)
    (recurrence_value : Option Int) (recurrence_unit : Option String) :
    Bool × Option String :=
  if recurrence_type == "one_off" then (true, none)
  else if recurrence_type == "yearly" then (true, none)
  else if recurrence_type == "custom_interval" then
    if !((match recurrence_value with | none => false | some v => v != 0) &&
         truthyStr recurrence_unit) then
      (false, some "Custom interval requires both value and unit")
    else if recurrence_value.getD 0 < 1 ∨ recurrence_value.getD 0 > 1000 then
      (false, some "Recurrence value must be between 1 and 1000")
    else if !(["days", "months", "years"].contains (recurrence_unit.getD "")) then
      (false, some "Recurrence unit must be days, months, or years")
    else (true, none)
  else (false, some "Invalid recurrence type")

/-- Row of the recipients table joined with event_recipients; only the fields
the matcher reads.  `notification_lead_time` is nullable (schema default 24). -/
structure Recipient where
  email : String
  notification_lead_time : Option Nat
deriving DecidableEq, Repr

/-- The matcher's lead time: `recipient.notification_lead_time || 24`
(part_004 line 195); null and 0 are falsy, so both fall back to 24. -/
def leadTimeHours (r : Recipient) : Nat :=
  match r.notification_lead_time with
  | none => 24
  | some 0 => 24
  | some n => n

/-- Entry pushed by `getEventsNeedingNotification` (part_004 lines 200-206).
`shouldNotifyAt` is kept on the linear minute scale (it may precede the
epoch only for degenerate inputs, hence `Int`). -/
structure DueNotification where
  event : Event
  recipient : Recipient
  eventDate : DateTime
  notificationLeadTime : Nat
  shouldNotifyAt : Int
deriving DecidableEq, Repr

/-- Event.findAll({ active: true }) (part_005 lines 57-96): every query of the
events table filters `WHERE active = true` and orders by `event_date ASC`.
The database is modelled as a list of events paired with their linked
recipients. -/
def findAllActive (db : List (Event × List Recipient)) :
    List (Event × List Recipient) :=
  (db.filter (fun p => p.1.active)).insertionSort
    (fun a b => toMinutes a.1.event_date ≤ toMinutes b.1.event_date)

/-- RecurrenceService.getEventsNeedingNotification (part_004 lines 178-217):
for each active event compute the next occurrence; for each linked recipient
let `notificationTime = eventDate - leadTimeHours` and emit when
`now.isBetween(notificationTime, notificationTime + 1 hour)` — moment's
default inclusivity, exclusive at both endpoints. -/
def getEventsNeedingNotification (db : List (Event × List Recipient))
    (now : DateTime) : List DueNotification :=
  (findAllActive db).flatMap fun p =>
    match getNextOccurrence p.1 now with
    | none => []
    | some next =>
      p.2.filterMap fun r =>
        let lead := leadTimeHours r
        let notifyAt : Int := (toMinutes next : Int) - 60 * lead
        if notifyAt < (toMinutes now : Int) ∧ (toMinutes now : Int) < notifyAt + 60 then
          some { event := p.1, recipient := r, eventDate := next,
                 notificationLeadTime := lead, shouldNotifyAt := notifyAt }
        else none

/-- EmailService constructor state (emailService.js lines 7-10). -/
def retryDelays : List Nat := [1000, 5000, 15000, 60000]

/-- `this.maxRetries = this.retryDelays.length`. -/
def maxRetries : Nat := retryDelays.length

/-- The recursive body of EmailService.sendEmail (emailService.js lines
30-74).  `mailer` gives the outcome of attempt `retryCount` (none = success,
some msg = the transport error of that attempt).  The returned pair is the
final outcome (ok: the 1-based attempt count of the successful attempt;
error: the raised last error) together with the list of backoff delays slept,
in order.  The recursion depth is bounded by `maxRetries`, which the top-level
call passes as fuel, so the fuel never cuts the source recursion short. -/
def sendEmailGo (mailer : Nat → Option String) (delays : List Nat)
    (maxR : Nat) : Nat → Nat → Except String Nat × List Nat
  | fuel, retryCount =>
    match mailer retryCount with
    | none => (Except.ok (retryCount + 1), [])
    | some err =>
      if retryCount < maxR - 1 then
        match fuel with
        | 0 => (Except.error err, [])
        | fuel + 1 =>
          let rest := sendEmailGo mailer delays maxR fuel (retryCount + 1)
          (rest.1, delays.getD retryCount 0 :: rest.2)
      else (Except.error err, [])

/-- EmailService.sendEmail: throws immediately when the mailer is not
configured (line 32), otherwise runs the retry loop from `retryCount = 0`. -/
def sendEmail (configured : Bool) (mailer : Nat → Option String) :
    Except String Nat × List Nat :=
  if configured = false then
    (Except.error "Email service not configured. Please set Gmail credentials.", [])
  else sendEmailGo mailer retryDelays maxRetries maxRetries 0

/-- Row appended to notification_history by logNotification (emailService.js
lines 77-95). -/
structure HistoryRecord where
  event_id : Option Nat
  recipient_email : String
  notification_type : String
  status : String
  error_message : Option String
deriving DecidableEq, Repr

/-- EmailService.sendEventReminder (emailService.js lines 98-145): one
sendEmail call; on success log exactly one 'sent' record, on any failure log
exactly one 'failed' record carrying the raised error message, then rethrow.
The result is the sendEmail outcome paired with the history records written
by this call. -/
def sendEventReminder (configured : Bool) (mailer : Nat → Option String)
    (ev : Event) (r : Recipient) :
    (Except String Nat × List Nat) × List HistoryRecord :=
  let res := sendEmail configured mailer
  match res.1 with
  | Except.ok _ =>
    (res, [{ event_id := some ev.id, recipient_email := r.email,
             notification_type := "event_reminder", status := "sent",
             error_message := none }])
  | Except.error e =>
    (res, [{ event_id := some ev.id, recipient_email := r.email,
             notification_type := "event_reminder", status := "failed",
             error_message := some e }])

/-- EmailService.sendDailyDigest (emailService.js lines 148-196): same
shape as sendEventReminder with a null event id and type 'digest'. -/
def sendDailyDigest (configured : Bool) (mailer : Nat → Option String)
    (userEmail : String) :
    (Except String Nat × List Nat) × List HistoryRecord :=
  let res := sendEmail configured mailer
  match res.1 with
  | Except.ok _ =>
    (res, [{ event_id := none, recipient_email := userEmail,
             notification_type := "digest", status := "sent",
             error_message := none }])
  | Except.error e =>
    (res, [{ event_id := none, recipient_email := userEmail,
             notification_type := "digest", status := "failed",
             error_message := some e }])

/-- Events observable on the scheduler's job classes: a cron timer tick for a
job class, or the completion of one in-flight invocation of it. -/
inductive SchedEvent where
  | tick (job : String)
  | finish (job : String)
deriving DecidableEq, Repr

/-- One step of the scheduler state, mapping each job class to its number of
in-flight invocations.  The cron callbacks registered by
scheduleNotificationChecks / scheduleDailyDigests / scheduleCleanup
(notificationScheduler.js lines 55-57, 71-73, 87-89) invoke the job body
unconditionally — the handlers consult no running-flag — so a tick always
starts one more invocation. -/
def schedStep (s : String → Nat) : SchedEvent → (String → Nat)
  | SchedEvent.tick j => fun j' => if j' = j then s j' + 1 else s j'
  | SchedEvent.finish j => fun j' => if j' = j then s j' - 1 else s j'

/-- In-flight invocation counts after a sequence of tick/finish events,
starting from the idle scheduler. -/
def schedRun (evs : List SchedEvent) : String → Nat :=
  evs.foldl schedStep (fun _ => 0)

/-- NotificationScheduler.sendImmediateEventNotification
(notificationScheduler.js lines 337-366).  `outcome r` abstracts whether the
per-recipient email call (including its internal retries) succeeds; a type
other than event_created / event_cancelled sends nothing and counts as
success.  Each recipient is processed in its own try/catch, so one failure
never stops the loop. -/
def sendImmediateEventNotification (configured : Bool)
    (outcome : Recipient → Bool) (notificationType : String)
    (recipients : List Recipient) : Nat × Nat :=
  if configured = false then (0, recipients.length)
  else
    recipients.foldl
      (fun acc r =>
        let ok := if notificationType == "event_created" then outcome r
          else if notificationType == "event_cancelled" then outcome r
          else true
        if ok then (acc.1 + 1, acc.2) else (acc.1, acc.2 + 1))
      (0, 0)

/-- Per-recipient success of one pass of sendImmediateEventNotification. -/
def immediateOk (outcome : Recipient → Bool) (notificationType : String)
    (r : Recipient) : Bool :=
  if notificationType == "event_created" then outcome r
  else if notificationType == "event_cancelled" then outcome r
  else true

/-- Sample one-off event at 2025-06-10 12:00, used for the matcher claims. -/
def evOneOff : Event :=
  { id := 1, title := "standup", description := "", event_date := ⟨2025, 6, 10, 720⟩,
    recurrence_type := "one_off", recurrence_value := none,
    recurrence_unit := none, active := true }

/-- Recipient with a 24-hour lead time. -/
def rcpt24 : Recipient := { email := "a@example.com", notification_lead_time := some 24 }

/-- Instant exactly 24 hours before `evOneOff`'s occurrence. -/
def nowAtLead : DateTime := ⟨2025, 6, 9, 720⟩

/-- Instant 20 minutes after `nowAtLead`. -/
def nowLead20 : DateTime := ⟨2025, 6, 9, 740⟩

/-- Sample yearly event anchored 2024-03-15 00:00 (claim C4's anchor). -/
def evYearly : Event :=
  { id := 2, title := "anniversary", description := "", event_date := ⟨2024, 3, 15, 0⟩,
    recurrence_type := "yearly", recurrence_value := none,
    recurrence_unit := none, active := true }

/-- Sample inactive one-off event at 2025-06-10 12:00. -/
def evInactive : Event :=
  { id := 3, title := "old", description := "", event_date := ⟨2025, 6, 10, 720⟩,
    recurrence_type := "one_off", recurrence_value := none,
    recurrence_unit := none, active := false }

/-- Sample yearly event anchored 2020-03-15 00:00, for the sequence-number
claim. -/
def evYearly2020 : Event :=
  { id := 4, title := "memorial", description := "", event_date := ⟨2020, 3, 15, 0⟩,
    recurrence_type := "yearly", recurrence_value := none,
    recurrence_unit := none, active := true }

/-- Sample custom-interval event: every 7 days from 2025-01-01 00:00. -/
def evWeekly : Event :=
  { id := 5, title := "weekly", description := "", event_date := ⟨2025, 1, 1, 0⟩,
    recurrence_type := "custom_interval", recurrence_value := some 7,
    recurrence_unit := some "days", active := true }

/-- A mailer whose every attempt fails with the same transport error. -/
def failMailer : Nat → Option String := fun _ => some "SMTP connection failed"

/-- A mailer that fails on attempts 1-3 and succeeds on attempt 4
(indices 0-2 fail, index 3 succeeds). -/
def lateMailer : Nat → Option String :=
  fun i => if i < 3 then some "SMTP connection failed" else none

/-- First-day index of linear month number `i` (= 12·year + month − 1) on the
day scale; used to reason about calendar-aware month stepping. -/
def monthIndexDays (i : Nat) : Nat :=
  daysBeforeYear (i / 12) + daysBeforeMonth (i / 12) (i % 12 + 1)

/-- The due notification the matcher emits for `evOneOff` / `rcpt24` inside the
one-hour window. -/
def dueSample : DueNotification :=
  { event := evOneOff, recipient := rcpt24, eventDate := ⟨2025, 6, 10, 720⟩,
    notificationLeadTime := 24,
    shouldNotifyAt := (toMinutes (⟨2025, 6, 10, 720⟩ : DateTime) : Int) - 60 * 24 }

theorem daysInMonth_pos (y m : Nat) : 1 ≤ daysInMonth y m := by
  unfold daysInMonth
  split
  · split <;> omega
  · split <;> omega

theorem daysInMonth_le (y m : Nat) : daysInMonth y m ≤ 31 := by
  unfold daysInMonth
  split
  · split <;> omega
  · split <;> omega

theorem daysBeforeMonth_succ (y m : Nat) (h1 : 1 ≤ m) (h2 : m ≤ 12) :
    daysBeforeMonth y (m + 1) = daysBeforeMonth y m + daysInMonth y m := by
  interval_cases m <;>
    cases hL : isLeap y <;>
    simp [daysBeforeMonth, daysInMonth, leapDays, hL]

theorem monthEnd_le (y m : Nat) (h1 : 1 ≤ m) (h2 : m ≤ 12) :
    daysBeforeMonth y m + daysInMonth y m ≤ 365 + leapDays y := by
  interval_cases m <;>
    cases hL : isLeap y <;>
    simp [daysBeforeMonth, daysInMonth, leapDays, hL]

theorem dayOfYear_lt (y m d : Nat) (h1 : 1 ≤ m) (h2 : m ≤ 12)
    (h3 : d ≤ daysInMonth y m) : daysBeforeMonth y m + (d - 1) < 365 + leapDays y := by
  have he := monthEnd_le y m h1 h2
  have hp := daysInMonth_pos y m
  omega

theorem isLeap_iff (y : Nat) :
    isLeap y = true ↔ (y % 4 = 0 ∧ y % 100 ≠ 0 ∨ y % 400 = 0) := by
  unfold isLeap
  simp [Bool.or_eq_true, Bool.and_eq_true, beq_iff_eq, bne_iff_ne]

set_option maxHeartbeats 1000000 in
theorem daysBeforeYear_succ (y : Nat) :
    daysBeforeYear (y + 1) = daysBeforeYear y + 365 + leapDays y := by
  by_cases h : isLeap y = true
  · have h1 : leapDays y = 1 := by unfold leapDays; simp [h]
    rw [h1]
    rw [isLeap_iff] at h
    unfold daysBeforeYear
    omega
  · have h1 : leapDays y = 0 := by unfold leapDays; simp [h]
    rw [isLeap_iff] at h
    rw [h1]
    unfold daysBeforeYear
    omega

theorem daysBeforeYear_mono {y y' : Nat} (h : y ≤ y') :
    daysBeforeYear y ≤ daysBeforeYear y' := by
  induction y' with
  | zero => simp_all [daysBeforeYear]
  | succ n ih =>
    rcases Nat.lt_or_ge y (n + 1) with hlt | hge
    · have ha := ih (by omega)
      have hb := daysBeforeYear_succ n
      omega
    · have hy : y = n + 1 := by omega
      subst hy
      exact le_refl _

theorem toDays_lt_next (d : DateTime) (h : d.Valid) :
    toDays d < daysBeforeYear (d.year + 1) := by
  obtain ⟨h1, h2, h3, h4, h5⟩ := h
  have hd := dayOfYear_lt d.year d.month d.day h1 h2 h4
  have hs := daysBeforeYear_succ d.year
  unfold toDays
  omega

theorem toMinutes_lt_of_year_lt {a b : DateTime} (ha : a.Valid) (hb : b.Valid)
    (h : a.year < b.year) : toMinutes a < toMinutes b := by
  have ha5 : a.minute < 1440 := ha.2.2.2.2
  have h1 := toDays_lt_next a ha
  have h2 : daysBeforeYear (a.year + 1) ≤ daysBeforeYear b.year := daysBeforeYear_mono h
  have h3 : daysBeforeYear b.year ≤ toDays b := by unfold toDays; omega
  unfold toMinutes
  omega

theorem setYear_valid {d : DateTime} (h : d.Valid) (y : Nat) : (setYear d y).Valid := by
  obtain ⟨h1, h2, h3, h4, h5⟩ := h
  refine ⟨h1, h2, ?_, ?_, h5⟩
  · exact le_min h3 (daysInMonth_pos y d.month)
  · exact min_le_right _ _

theorem setYear_le_of_le {d : DateTime} (h : d.Valid) {y y' : Nat} (hy : y ≤ y') :
    toMinutes (setYear d y) ≤ toMinutes (setYear d y') := by
  rcases Nat.lt_or_ge y y' with hlt | hge
  · exact le_of_lt (toMinutes_lt_of_year_lt (setYear_valid h y) (setYear_valid h y') hlt)
  · have : y = y' := le_antisymm hy hge
    subst this
    exact le_refl _

theorem addYears_valid {d : DateTime} (h : d.Valid) (v : Nat) : (addYears d v).Valid := by
  obtain ⟨h1, h2, h3, h4, h5⟩ := h
  refine ⟨h1, h2, ?_, ?_, h5⟩
  · exact le_min h3 (daysInMonth_pos _ d.month)
  · exact min_le_right _ _

theorem addYears_strict {d : DateTime} (h : d.Valid) {v : Nat} (hv : 1 ≤ v) :
    toMinutes d < toMinutes (addYears d v) := by
  refine toMinutes_lt_of_year_lt h (addYears_valid h v) ?_
  show d.year < d.year + v
  omega

theorem monthIndexDays_succ (i : Nat) :
    monthIndexDays (i + 1) = monthIndexDays i + daysInMonth (i / 12) (i % 12 + 1) := by
  unfold monthIndexDays
  rcases Nat.lt_or_ge (i % 12) 11 with hlt | hge
  · have h1 : (i + 1) / 12 = i / 12 := by omega
    have h2 : (i + 1) % 12 = i % 12 + 1 := by omega
    rw [h1, h2, daysBeforeMonth_succ (i / 12) (i % 12 + 1) (by omega) (by omega)]
    omega
  · have he : i % 12 = 11 := by omega
    have h1 : (i + 1) / 12 = i / 12 + 1 := by omega
    have h2 : (i + 1) % 12 = 0 := by omega
    rw [h1, h2, he, daysBeforeYear_succ]
    have h3 : daysBeforeMonth (i / 12 + 1) 1 = 0 := rfl
    have h4 : daysBeforeMonth (i / 12) 12 = 334 + leapDays (i / 12) := rfl
    have h5 : daysInMonth (i / 12) 12 = 31 := rfl
    rw [h3, h4, h5]
    omega

theorem monthIndexDays_mono {i j : Nat} (h : i ≤ j) :
    monthIndexDays i ≤ monthIndexDays j := by
  induction j with
  | zero => simp_all
  | succ n ih =>
    rcases Nat.lt_or_ge i (n + 1) with hlt | hge
    · have ha := ih (by omega)
      have hb := monthIndexDays_succ n
      have hc := daysInMonth_pos (n / 12) (n % 12 + 1)
      omega
    · have hy : i = n + 1 := by omega
      subst hy
      exact le_refl _

theorem toDays_eq_monthIndex (d : DateTime) (h1 : 1 ≤ d.month) (h2 : d.month ≤ 12) :
    toDays d = monthIndexDays (12 * d.year + (d.month - 1)) + (d.day - 1) := by
  unfold toDays monthIndexDays
  have ha : (12 * d.year + (d.month - 1)) / 12 = d.year := by omega
  have hb : (12 * d.year + (d.month - 1)) % 12 = d.month - 1 := by omega
  rw [ha, hb]
  have hc : d.month - 1 + 1 = d.month := by omega
  rw [hc]

theorem toMinutes_lt_of_monthIdx_lt {a b : DateTime} (ha : a.Valid) (hb : b.Valid)
    (h : 12 * a.year + (a.month - 1) < 12 * b.year + (b.month - 1)) :
    toMinutes a < toMinutes b := by
  obtain ⟨ha1, ha2, ha3, ha4, ha5⟩ := ha
  obtain ⟨hb1, hb2, hb3, hb4, hb5⟩ := hb
  have hta := toDays_eq_monthIndex a ha1 ha2
  have htb := toDays_eq_monthIndex b hb1 hb2
  have hs := monthIndexDays_succ (12 * a.year + (a.month - 1))
  have hd : (12 * a.year + (a.month - 1)) / 12 = a.year := by omega
  have hm : (12 * a.year + (a.month - 1)) % 12 + 1 = a.month := by omega
  rw [hd] at hs
  rw [hm] at hs
  have hmono : monthIndexDays (12 * a.year + (a.month - 1) + 1) ≤
      monthIndexDays (12 * b.year + (b.month - 1)) := monthIndexDays_mono (by omega)
  have htd : toDays a < toDays b := by omega
  unfold toMinutes
  omega

theorem addMonths_valid {d : DateTime} (h : d.Valid) (v : Nat) : (addMonths d v).Valid := by
  obtain ⟨h1, h2, h3, h4, h5⟩ := h
  refine ⟨?_, ?_, ?_, ?_, h5⟩
  · show 1 ≤ (d.month - 1 + v) % 12 + 1
    omega
  · show (d.month - 1 + v) % 12 + 1 ≤ 12
    omega
  · exact le_min h3 (daysInMonth_pos _ _)
  · exact min_le_right _ _

theorem addMonths_idx (d : DateTime) (v : Nat) (h1 : 1 ≤ d.month) :
    12 * (addMonths d v).year + ((addMonths d v).month - 1)
      = 12 * d.year + (d.month - 1) + v := by
  show 12 * (d.year + (d.month - 1 + v) / 12) + ((d.month - 1 + v) % 12 + 1 - 1)
      = 12 * d.year + (d.month - 1) + v
  omega

theorem addMonths_strict {d : DateTime} (h : d.Valid) {v : Nat} (hv : 1 ≤ v) :
    toMinutes d < toMinutes (addMonths d v) := by
  refine toMinutes_lt_of_monthIdx_lt h (addMonths_valid h v) ?_
  rw [addMonths_idx d v h.1]
  omega

theorem succDay_valid {d : DateTime} (h : d.Valid) : (succDay d).Valid := by
  obtain ⟨h1, h2, h3, h4, h5⟩ := h
  unfold succDay
  split <;> rename_i hc
  · refine ⟨h1, h2, ?_, ?_, h5⟩
    · show 1 ≤ d.day + 1
      omega
    · show d.day + 1 ≤ daysInMonth d.year d.month
      omega
  · split <;> rename_i hm
    · refine ⟨?_, ?_, ?_, ?_, h5⟩
      · show 1 ≤ d.month + 1
        omega
      · show d.month + 1 ≤ 12
        omega
      · show 1 ≤ 1
        omega
      · show 1 ≤ daysInMonth d.year (d.month + 1)
        exact daysInMonth_pos _ _
    · refine ⟨?_, ?_, ?_, ?_, h5⟩
      · show 1 ≤ 1
        omega
      · show (1 : Nat) ≤ 12
        omega
      · show 1 ≤ 1
        omega
      · show 1 ≤ daysInMonth (d.year + 1) 1
        exact daysInMonth_pos _ _

theorem succDay_toMinutes {d : DateTime} (h : d.Valid) :
    toMinutes (succDay d) = toMinutes d + 1440 := by
  obtain ⟨h1, h2, h3, h4, h5⟩ := h
  unfold succDay
  split <;> rename_i hc
  · show 1440 * (daysBeforeYear d.year + daysBeforeMonth d.year d.month + (d.day + 1 - 1))
        + d.minute
      = 1440 * (daysBeforeYear d.year + daysBeforeMonth d.year d.month + (d.day - 1))
        + d.minute + 1440
    omega
  · split <;> rename_i hm
    · show 1440 * (daysBeforeYear d.year + daysBeforeMonth d.year (d.month + 1) + (1 - 1))
          + d.minute
        = 1440 * (daysBeforeYear d.year + daysBeforeMonth d.year d.month + (d.day - 1))
          + d.minute + 1440
      rw [daysBeforeMonth_succ d.year d.month h1 (by omega)]
      omega
    · show 1440 * (daysBeforeYear (d.year + 1) + daysBeforeMonth (d.year + 1) 1 + (1 - 1))
          + d.minute
        = 1440 * (daysBeforeYear d.year + daysBeforeMonth d.year d.month + (d.day - 1))
          + d.minute + 1440
      have hm12 : d.month = 12 := by omega
      have hd31 : d.day = 31 := by
        rw [hm12] at h4 hc
        have hdm : daysInMonth d.year 12 = 31 := rfl
        omega
      have hy := daysBeforeYear_succ d.year
      have hb1 : daysBeforeMonth (d.year + 1) 1 = 0 := rfl
      have hb12 : daysBeforeMonth d.year 12 = 334 + leapDays d.year := rfl
      rw [hb1, hm12, hd31, hb12, hy]
      omega

theorem addDays_spec {d : DateTime} (h : d.Valid) (n : Nat) :
    toMinutes (addDays d n) = toMinutes d + 1440 * n ∧ (addDays d n).Valid := by
  induction n with
  | zero => exact ⟨by simp [addDays], h⟩
  | succ k ih =>
    have hv := ih.2
    constructor
    · show toMinutes (succDay (addDays d k)) = toMinutes d + 1440 * (k + 1)
      rw [succDay_toMinutes hv, ih.1]
      ring
    · exact succDay_valid hv

theorem addUnit_strict {d : DateTime} (h : d.Valid) {v : Nat} (hv : 1 ≤ v)
    {u : String} (hu : u = "days" ∨ u = "months" ∨ u = "years") :
    toMinutes d < toMinutes (addUnit d v u) ∧ (addUnit d v u).Valid := by
  rcases hu with hu | hu | hu <;> subst hu
  · have he : addUnit d v "days" = addDays d v := rfl
    rw [he]
    have hs := addDays_spec h v
    exact ⟨by omega, hs.2⟩
  · have he : addUnit d v "months" = addMonths d v := rfl
    rw [he]
    exact ⟨addMonths_strict h hv, addMonths_valid h v⟩
  · have he : addUnit d v "years" = addYears d v := rfl
    rw [he]
    exact ⟨addYears_strict h hv, addYears_valid h v⟩

theorem addUnit_valid {d : DateTime} (h : d.Valid) (v : Nat) (u : String) :
    (addUnit d v u).Valid := by
  unfold addUnit
  split
  · exact (addDays_spec h v).2
  · split
    · exact addMonths_valid h v
    · split
      · exact addYears_valid h v
      · exact h

theorem advanceToStart_valid (startD : DateTime) (v : Nat) (u : String) :
    ∀ (fuel : Nat) {cur : DateTime}, cur.Valid →
      (advanceToStart startD v u fuel cur).Valid := by
  intro fuel
  induction fuel with
  | zero => intro cur h; exact h
  | succ n ih =>
    intro cur h
    show (if toMinutes cur < toMinutes startD then
        advanceToStart startD v u n (addUnit cur v u) else cur).Valid
    split
    · exact ih (addUnit_valid h v u)
    · exact h

theorem customLoop_map_seq (ev : Event) (endD : DateTime) (v : Nat) (u : String)
    (maxOcc : Nat) :
    ∀ (fuel : Nat) (cur : DateTime) (count ic : Nat),
      (customLoop ev endD v u maxOcc fuel cur count ic).map Occurrence.occurrenceNumber
        = List.range' (ic + 1)
            (customLoop ev endD v u maxOcc fuel cur count ic).length := by
  intro fuel
  induction fuel with
  | zero => intro cur count ic; simp [customLoop]
  | succ n ih =>
    intro cur count ic
    rw [show customLoop ev endD v u maxOcc (n + 1) cur count ic =
        (if toMinutes cur ≤ toMinutes endD ∧ count < maxOcc then
          mkCustomOcc ev cur ic ::
            customLoop ev endD v u maxOcc n (addUnit cur v u) (count + 1) (ic + 1)
        else []) from rfl]
    split
    · simp only [List.map_cons, List.length_cons, ih, List.range'_succ]
      rfl
    · simp

theorem customLoop_date_lb (ev : Event) (endD : DateTime) {v : Nat} (hv : 1 ≤ v)
    {u : String} (hu : u = "days" ∨ u = "months" ∨ u = "years") (maxOcc : Nat) :
    ∀ (fuel : Nat) {cur : DateTime}, cur.Valid → ∀ (count ic : Nat),
      ∀ o ∈ customLoop ev endD v u maxOcc fuel cur count ic,
        toMinutes cur ≤ toMinutes o.date := by
  intro fuel
  induction fuel with
  | zero => intro cur _ count ic o ho; simp [customLoop] at ho
  | succ n ih =>
    intro cur hval count ic o ho
    rw [show customLoop ev endD v u maxOcc (n + 1) cur count ic =
        (if toMinutes cur ≤ toMinutes endD ∧ count < maxOcc then
          mkCustomOcc ev cur ic ::
            customLoop ev endD v u maxOcc n (addUnit cur v u) (count + 1) (ic + 1)
        else []) from rfl] at ho
    split at ho
    · rcases List.mem_cons.mp ho with hh | ht
      · subst hh
        exact le_refl _
      · have hs := addUnit_strict hval hv hu
        have hle := ih hs.2 (count + 1) (ic + 1) o ht
        omega
    · simp at ho

theorem customLoop_sorted (ev : Event) (endD : DateTime) {v : Nat} (hv : 1 ≤ v)
    {u : String} (hu : u = "days" ∨ u = "months" ∨ u = "years") (maxOcc : Nat) :
    ∀ (fuel : Nat) {cur : DateTime}, cur.Valid → ∀ (count ic : Nat),
      (customLoop ev endD v u maxOcc fuel cur count ic).Sorted
        (fun a b => toMinutes a.date ≤ toMinutes b.date) := by
  intro fuel
  induction fuel with
  | zero => intro cur _ count ic; simp [customLoop, List.Sorted]
  | succ n ih =>
    intro cur hval count ic
    rw [show customLoop ev endD v u maxOcc (n + 1) cur count ic =
        (if toMinutes cur ≤ toMinutes endD ∧ count < maxOcc then
          mkCustomOcc ev cur ic ::
            customLoop ev endD v u maxOcc n (addUnit cur v u) (count + 1) (ic + 1)
        else []) from rfl]
    split
    · rw [List.sorted_cons]
      constructor
      · intro b hb
        have hs := addUnit_strict hval hv hu
        have hle := customLoop_date_lb ev endD hv hu maxOcc n hs.2 (count + 1) (ic + 1) b hb
        show toMinutes (mkCustomOcc ev cur ic).date ≤ toMinutes b.date
        have hd : (mkCustomOcc ev cur ic).date = cur := rfl
        rw [hd]
        omega
      · exact ih (addUnit_strict hval hv hu).2 (count + 1) (ic + 1)
    · simp [List.Sorted]

theorem customLoop_length_le (ev : Event) (endD : DateTime) (v : Nat) (u : String)
    (maxOcc : Nat) :
    ∀ (fuel : Nat) (cur : DateTime) (count ic : Nat),
      (customLoop ev endD v u maxOcc fuel cur count ic).length ≤ maxOcc - count := by
  intro fuel
  induction fuel with
  | zero => intro cur count ic; simp [customLoop]
  | succ n ih =>
    intro cur count ic
    rw [show customLoop ev endD v u maxOcc (n + 1) cur count ic =
        (if toMinutes cur ≤ toMinutes endD ∧ count < maxOcc then
          mkCustomOcc ev cur ic ::
            customLoop ev endD v u maxOcc n (addUnit cur v u) (count + 1) (ic + 1)
        else []) from rfl]
    split <;> rename_i hc
    · have hl := ih (addUnit cur v u) (count + 1) (ic + 1)
      simp only [List.length_cons]
      omega
    · simp

theorem yearlyLoop_mem (ev : Event) (startD endD : DateTime) (maxOcc : Nat) :
    ∀ (fuel year count : Nat) (o : Occurrence),
      o ∈ yearlyLoop ev startD endD maxOcc fuel year count →
        ∃ y2, year ≤ y2 ∧ o = mkYearlyOcc ev y2 := by
  intro fuel
  induction fuel with
  | zero => intro year count o ho; simp [yearlyLoop] at ho
  | succ n ih =>
    intro year count o ho
    rw [show yearlyLoop ev startD endD maxOcc (n + 1) year count =
        (if year ≤ endD.year ∧ count < maxOcc then
          if toMinutes startD ≤ toMinutes (setYear ev.event_date year) ∧
              toMinutes (setYear ev.event_date year) ≤ toMinutes endD then
            mkYearlyOcc ev year :: yearlyLoop ev startD endD maxOcc n (year + 1) (count + 1)
          else yearlyLoop ev startD endD maxOcc n (year + 1) count
        else []) from rfl] at ho
    split at ho
    · split at ho
      · rcases List.mem_cons.mp ho with hh | ht
        · exact ⟨year, le_refl _, hh⟩
        · obtain ⟨y2, hy2, he⟩ := ih (year + 1) (count + 1) o ht
          exact ⟨y2, by omega, he⟩
      · obtain ⟨y2, hy2, he⟩ := ih (year + 1) count o ho
        exact ⟨y2, by omega, he⟩
    · simp at ho

theorem yearlyLoop_pairwise (ev : Event) (startD endD : DateTime) (maxOcc : Nat)
    (hval : ev.event_date.Valid) :
    ∀ (fuel year count : Nat), ev.event_date.year ≤ year →
      (yearlyLoop ev startD endD maxOcc fuel year count).Pairwise
        (fun a b => toMinutes a.date ≤ toMinutes b.date ∧
          a.occurrenceNumber < b.occurrenceNumber) := by
  intro fuel
  induction fuel with
  | zero => intro year count hy; simp [yearlyLoop]
  | succ n ih =>
    intro year count hy
    rw [show yearlyLoop ev startD endD maxOcc (n + 1) year count =
        (if year ≤ endD.year ∧ count < maxOcc then
          if toMinutes startD ≤ toMinutes (setYear ev.event_date year) ∧
              toMinutes (setYear ev.event_date year) ≤ toMinutes endD then
            mkYearlyOcc ev year :: yearlyLoop ev startD endD maxOcc n (year + 1) (count + 1)
          else yearlyLoop ev startD endD maxOcc n (year + 1) count
        else []) from rfl]
    split
    · split
      · rw [List.pairwise_cons]
        constructor
        · intro b hb
          obtain ⟨y2, hy2, he⟩ := yearlyLoop_mem ev startD endD maxOcc n (year + 1) (count + 1) b hb
          subst he
          constructor
          · show toMinutes (setYear ev.event_date year) ≤
              toMinutes (setYear ev.event_date y2)
            exact setYear_le_of_le hval (by omega)
          · show year - ev.event_date.year + 1 < y2 - ev.event_date.year + 1
            omega
        · exact ih (year + 1) (count + 1) (by omega)
      · exact ih (year + 1) count (by omega)
    · simp

theorem sortByDate_eq_of_sorted {l : List Occurrence}
    (h : l.Sorted (fun a b => toMinutes a.date ≤ toMinutes b.date)) :
    sortByDate l = l :=
  List.Sorted.insertionSort_eq h

theorem calc_yearly_eq (ev : Event) (startD endD : DateTime) (maxOcc : Nat)
    (htype : ev.recurrence_type = "yearly") :
    calculateUpcomingOccurrences ev startD endD maxOcc =
      sortByDate (yearlyLoop ev startD endD maxOcc
        (endD.year + 1 - max startD.year ev.event_date.year)
        (max startD.year ev.event_date.year) 0) := by
  unfold calculateUpcomingOccurrences
  rw [htype]
  rfl

theorem calc_custom_eq (ev : Event) (startD endD : DateTime) (maxOcc : Nat)
    (htype : ev.recurrence_type = "custom_interval") {v : Nat}
    (hval : ev.recurrence_value = some v) (hv0 : v ≠ 0) {u : String}
    (hunit : ev.recurrence_unit = some u) (hu0 : u ≠ "") :
    calculateUpcomingOccurrences ev startD endD maxOcc =
      sortByDate (customLoop ev endD v u maxOcc (maxOcc + 1)
        (advanceToStart startD v u (toMinutes startD + 1) ev.event_date) 0 0) := by
  unfold calculateUpcomingOccurrences
  rw [htype, hval, hunit]
  simp only [truthyNat, truthyStr, Option.getD_some]
  have hb1 : (v != 0) = true := by simp [hv0]
  have hb2 : (u != "") = true := by simp [hu0]
  rw [hb1, hb2]
  rfl

theorem calc_oneoff_eq (ev : Event) (startD endD : DateTime) (maxOcc : Nat)
    (htype : ev.recurrence_type = "one_off") :
    calculateUpcomingOccurrences ev startD endD maxOcc =
      (if toMinutes startD ≤ toMinutes ev.event_date ∧
          toMinutes ev.event_date ≤ toMinutes endD then
        [{ date := ev.event_date, title := ev.title, description := ev.description,
           eventId := ev.id, occurrenceNumber := 1,
           yearsSinceOriginal := none, intervalsSinceOriginal := none }]
      else []) := by
  unfold calculateUpcomingOccurrences
  rw [htype]
  rfl

theorem calc_else_eq (ev : Event) (startD endD : DateTime) (maxOcc : Nat)
    (hne1 : ev.recurrence_type ≠ "one_off") (hne2 : ev.recurrence_type ≠ "yearly")
    (hfb : (ev.recurrence_type == "custom_interval" && truthyNat ev.recurrence_value
      && truthyStr ev.recurrence_unit) = false) :
    calculateUpcomingOccurrences ev startD endD maxOcc = [] := by
  unfold calculateUpcomingOccurrences
  have c1 : (ev.recurrence_type == "one_off") = false := by
    simp [hne1]
  have c2 : (ev.recurrence_type == "yearly") = false := by
    simp [hne2]
  rw [c1, c2, hfb]
  rfl

/-- C7 (corrected).  In every list returned by `calculateUpcomingOccurrences`
the occurrence sequence numbers are strictly increasing, and for a yearly
event each sequence number equals the occurrence's year minus the anchor year
plus one, for every query range.  They do not, however, always start at 1:
the yearly branch numbers occurrences from the anchor year, so a range that
starts after the anchor year begins at a number greater than 1, while the
custom-interval branch always restarts at 1 for the queried range. -/
theorem occurrence_sequence_numbers (ev : Event) (startD endD : DateTime)
    (maxOcc : Nat) (hdate : ev.event_date.Valid)
    (hv : ∀ x, ev.recurrence_value = some x → 1 ≤ x)
    (hu : ∀ s, ev.recurrence_unit = some s →
      s = "days" ∨ s = "months" ∨ s = "years") :
    ((calculateUpcomingOccurrences ev startD endD maxOcc).map
        Occurrence.occurrenceNumber).Pairwise (· < ·) ∧
    (ev.recurrence_type = "yearly" →
      ∀ o ∈ calculateUpcomingOccurrences ev startD endD maxOcc,
        o.occurrenceNumber = o.date.year - ev.event_date.year + 1) ∧
    (ev.recurrence_type = "custom_interval" →
      (calculateUpcomingOccurrences ev startD endD maxOcc).map
          Occurrence.occurrenceNumber
        = List.range' 1 (calculateUpcomingOccurrences ev startD endD maxOcc).length) := by
  by_cases h1 : ev.recurrence_type = "one_off"
  · rw [calc_oneoff_eq ev startD endD maxOcc h1]
    refine ⟨?_, ?_, ?_⟩
    · split <;> simp
    · intro hy
      rw [h1] at hy
      exact absurd hy (by decide)
    · intro hc
      rw [h1] at hc
      exact absurd hc (by decide)
  · by_cases h2 : ev.recurrence_type = "yearly"
    · rw [calc_yearly_eq ev startD endD maxOcc h2]
      have hpw := yearlyLoop_pairwise ev startD endD maxOcc hdate
        (endD.year + 1 - max startD.year ev.event_date.year)
        (max startD.year ev.event_date.year) 0 (le_max_right _ _)
      have hsorted : (yearlyLoop ev startD endD maxOcc
          (endD.year + 1 - max startD.year ev.event_date.year)
          (max startD.year ev.event_date.year) 0).Sorted
            (fun a b => toMinutes a.date ≤ toMinutes b.date) :=
        hpw.imp (fun h => h.1)
      rw [sortByDate_eq_of_sorted hsorted]
      refine ⟨?_, ?_, ?_⟩
      · exact List.Pairwise.map _ (fun a b hab => hab.2) hpw
      · intro _ o ho
        obtain ⟨y2, hy2, he⟩ := yearlyLoop_mem ev startD endD maxOcc _ _ _ o ho
        subst he
        rfl
      · intro hc
        rw [hc] at h2
        exact absurd h2 (by decide)
    · by_cases h3 : ev.recurrence_type = "custom_interval"
      · rcases hval : ev.recurrence_value with _ | v
        · have hempty : calculateUpcomingOccurrences ev startD endD maxOcc = [] := by
            refine calc_else_eq ev startD endD maxOcc h1 h2 ?_
            rw [hval]
            simp [truthyNat]
          rw [hempty]
          exact ⟨by simp, fun hy => absurd hy h2, fun _ => by simp⟩
        · rcases hunit : ev.recurrence_unit with _ | s
          · have hempty : calculateUpcomingOccurrences ev startD endD maxOcc = [] := by
              refine calc_else_eq ev startD endD maxOcc h1 h2 ?_
              rw [hunit]
              simp [truthyStr]
            rw [hempty]
            exact ⟨by simp, fun hy => absurd hy h2, fun _ => by simp⟩
          · have h1v : 1 ≤ v := hv v hval
            have hv0 : v ≠ 0 := by omega
            have hus : s = "days" ∨ s = "months" ∨ s = "years" := hu s hunit
            have hs0 : s ≠ "" := by
              rcases hus with hus | hus | hus <;> subst hus <;> decide
            rw [calc_custom_eq ev startD endD maxOcc h3 hval hv0 hunit hs0]
            have hcur := advanceToStart_valid startD v s (toMinutes startD + 1) hdate
            have hsorted := customLoop_sorted ev endD h1v hus maxOcc (maxOcc + 1) hcur 0 0
            rw [sortByDate_eq_of_sorted hsorted]
            refine ⟨?_, ?_, ?_⟩
            · rw [customLoop_map_seq]
              exact List.pairwise_lt_range' _ _
            · intro hy
              rw [hy] at h3
              exact absurd h3 (by decide)
            · intro _
              rw [customLoop_map_seq]
      · have hempty : calculateUpcomingOccurrences ev startD endD maxOcc = [] := by
          refine calc_else_eq ev startD endD maxOcc h1 h2 ?_
          have : (ev.recurrence_type == "custom_interval") = false := by
            simp [h3]
          rw [this]
          rfl
        rw [hempty]
        exact ⟨by simp, fun hy => absurd hy h2, fun _ => by simp⟩

/-- C7 witness: for the weekly event the sequence numbers of the occurrences
in the first 30 days are strictly increasing. -/
theorem occurrence_sequence_numbers_witness :
    ((calculateUpcomingOccurrences evWeekly ⟨2025, 1, 1, 0⟩
        (addDays ⟨2025, 1, 1, 0⟩ 30) 50).map Occurrence.occurrenceNumber).Pairwise
      (· < ·) :=
  (occurrence_sequence_numbers evWeekly ⟨2025, 1, 1, 0⟩ (addDays ⟨2025, 1, 1, 0⟩ 30)
    50 (by decide)
    (by intro x hx; simp [evWeekly] at hx; omega)
    (by intro s hs; simp [evWeekly] at hs; exact Or.inl hs.symm)).1

/-- C7 counterexample: the yearly event anchored 2020-03-15, queried over the
range 2023-01-01 .. 2023-12-31, yields a single occurrence whose sequence
number is 4, not 1 — the sequence numbers of a range-restricted list do not
start at 1. -/
theorem yearly_sequence_not_starting_at_one_cex :
    (calculateUpcomingOccurrences evYearly2020 ⟨2023, 1, 1, 0⟩ ⟨2023, 12, 31, 0⟩
        50).map Occurrence.occurrenceNumber = [4] := by
  decide

set_option maxRecDepth 4000 in
/-- C8 (confirmed).  For the custom-interval event with value 7, unit days,
anchored at T = 2025-01-01 00:00, the occurrences in [T, T+30d] are exactly
T, T+7d, T+14d, T+21d, T+28d in strictly ascending order (hence duplicate
free), and for every custom-interval event the output length never exceeds
`maxOccurrences`. -/
theorem custom_weekly_occurrences :
    ((calculateUpcomingOccurrences evWeekly ⟨2025, 1, 1, 0⟩
          (addDays ⟨2025, 1, 1, 0⟩ 30) 50).map Occurrence.date
        = [⟨2025, 1, 1, 0⟩, addDays ⟨2025, 1, 1, 0⟩ 7, addDays ⟨2025, 1, 1, 0⟩ 14,
           addDays ⟨2025, 1, 1, 0⟩ 21, addDays ⟨2025, 1, 1, 0⟩ 28] ∧
      ((calculateUpcomingOccurrences evWeekly ⟨2025, 1, 1, 0⟩
          (addDays ⟨2025, 1, 1, 0⟩ 30) 50).map (fun o => toMinutes o.date)).Pairwise
        (· < ·)) ∧
    (∀ (ev : Event) (s e : DateTime) (m : Nat),
      ev.recurrence_type = "custom_interval" →
        (calculateUpcomingOccurrences ev s e m).length ≤ m) := by
  constructor
  · constructor
    · decide
    · decide
  · intro ev s e m htype
    have hne1 : ev.recurrence_type ≠ "one_off" := by rw [htype]; decide
    have hne2 : ev.recurrence_type ≠ "yearly" := by rw [htype]; decide
    rcases hval : ev.recurrence_value with _ | v
    · rw [calc_else_eq ev s e m hne1 hne2 (by rw [hval]; simp [truthyNat])]
      simp
    · rcases hunit : ev.recurrence_unit with _ | us
      · rw [calc_else_eq ev s e m hne1 hne2 (by rw [hunit]; simp [truthyStr])]
        simp
      · by_cases hv0 : v = 0
        · rw [calc_else_eq ev s e m hne1 hne2
            (by rw [hval, hv0]; simp [truthyNat])]
          simp
        · by_cases hs0 : us = ""
          · rw [calc_else_eq ev s e m hne1 hne2
              (by rw [hunit, hs0]; simp [truthyStr])]
            simp
          · rw [calc_custom_eq ev s e m htype hval hv0 hunit hs0]
            have hlen := customLoop_length_le ev e v us m (m + 1)
              (advanceToStart s v us (toMinutes s + 1) ev.event_date) 0 0
            have hsort : (sortByDate (customLoop ev e v us m (m + 1)
                (advanceToStart s v us (toMinutes s + 1) ev.event_date) 0 0)).length
              = (customLoop ev e v us m (m + 1)
                (advanceToStart s v us (toMinutes s + 1) ev.event_date) 0 0).length :=
              List.length_insertionSort _ _
            omega

/-- C8 witness: the general cap applied at the concrete weekly event. -/
theorem custom_weekly_occurrences_witness :
    (calculateUpcomingOccurrences evWeekly ⟨2025, 1, 1, 0⟩
        (addDays ⟨2025, 1, 1, 0⟩ 30) 50).length ≤ 50 :=
  custom_weekly_occurrences.2 evWeekly ⟨2025, 1, 1, 0⟩
    (addDays ⟨2025, 1, 1, 0⟩ 30) 50 rfl

theorem next_yearly_eq (ev : Event) (now : DateTime)
    (htype : ev.recurrence_type = "yearly") :
    getNextOccurrence ev now =
      (if toMinutes (setYear ev.event_date now.year) ≤ toMinutes now then
        some (addYears (setYear ev.event_date now.year) 1)
      else some (setYear ev.event_date now.year)) := by
  unfold getNextOccurrence
  rw [htype]
  rfl

theorem toMinutes_le_of_day_le {a b : DateTime} (hy : a.year = b.year)
    (hm : a.month = b.month) (hmin : a.minute = b.minute) (hd : a.day ≤ b.day) :
    toMinutes a ≤ toMinutes b := by
  unfold toMinutes toDays
  rw [hy, hm, hmin]
  omega

/-- C4 (corrected).  For every yearly event `getNextOccurrence` returns the
first anniversary occurrence (same month and minute as the anchor, day clamped
to the target month) strictly after `now`; the spec's 2025-03-15 / 2026-03-15
examples hold.  The result is however not always at or after the anchor: when
`now` precedes the anchor year, the returned anniversary precedes the anchor
itself. -/
theorem nextOccurrence_yearly_strictly_after :
    (∀ (ev : Event) (now : DateTime), ev.recurrence_type = "yearly" →
      ev.event_date.Valid → now.Valid →
      ∃ d, getNextOccurrence ev now = some d ∧
        toMinutes now < toMinutes d ∧
        d.month = ev.event_date.month ∧ d.minute = ev.event_date.minute ∧
        (∀ y, toMinutes now < toMinutes (setYear ev.event_date y) →
          toMinutes d ≤ toMinutes (setYear ev.event_date y))) ∧
    getNextOccurrence evYearly ⟨2025, 1, 1, 0⟩ = some ⟨2025, 3, 15, 0⟩ ∧
    getNextOccurrence evYearly ⟨2025, 4, 1, 0⟩ = some ⟨2026, 3, 15, 0⟩ := by
  refine ⟨?_, by decide, by decide⟩
  intro ev now htype hdate hnow
  rw [next_yearly_eq ev now htype]
  by_cases hc : toMinutes (setYear ev.event_date now.year) ≤ toMinutes now
  · rw [if_pos hc]
    refine ⟨addYears (setYear ev.event_date now.year) 1, rfl, ?_, rfl, rfl, ?_⟩
    · refine toMinutes_lt_of_year_lt hnow
        (addYears_valid (setYear_valid hdate now.year) 1) ?_
      show now.year < now.year + 1
      omega
    · intro y hy
      rcases le_or_lt y now.year with hle | hgt
      · have h1 := setYear_le_of_le hdate hle
        omega
      · have h2 : toMinutes (addYears (setYear ev.event_date now.year) 1)
            ≤ toMinutes (setYear ev.event_date (now.year + 1)) := by
          refine toMinutes_le_of_day_le rfl rfl rfl ?_
          show min (min ev.event_date.day
              (daysInMonth now.year ev.event_date.month))
              (daysInMonth (now.year + 1) ev.event_date.month)
            ≤ min ev.event_date.day
              (daysInMonth (now.year + 1) ev.event_date.month)
          exact min_le_min_right _ (min_le_left _ _)
        have h3 := setYear_le_of_le hdate (show now.year + 1 ≤ y by omega)
        omega
  · rw [if_neg hc]
    refine ⟨setYear ev.event_date now.year, rfl, by omega, rfl, rfl, ?_⟩
    intro y hy
    rcases le_or_lt now.year y with hle | hgt
    · exact setYear_le_of_le hdate hle
    · have h1 : toMinutes (setYear ev.event_date y) < toMinutes now :=
        toMinutes_lt_of_year_lt (setYear_valid hdate y) hnow hgt
      omega

/-- C4 witness: the general theorem applied to the 2024-03-15 anchor with
now = 2025-01-01, together with the evaluated result. -/
theorem nextOccurrence_yearly_strictly_after_witness :
    ∃ d, getNextOccurrence evYearly ⟨2025, 1, 1, 0⟩ = some d ∧
      toMinutes (⟨2025, 1, 1, 0⟩ : DateTime) < toMinutes d := by
  obtain ⟨d, h1, h2, h3⟩ := nextOccurrence_yearly_strictly_after.1 evYearly
    ⟨2025, 1, 1, 0⟩ rfl (by decide) (by decide)
  exact ⟨d, h1, h2⟩

/-- C4 counterexample: for the yearly event anchored 2024-03-15, a poll at
now = 2020-01-01 returns 2020-03-15, which is strictly earlier than the
anchor — refuting the claim that the result is never earlier than the
event's anchor. -/
theorem nextOccurrence_before_anchor_cex :
    getNextOccurrence evYearly ⟨2020, 1, 1, 0⟩ = some ⟨2020, 3, 15, 0⟩ ∧
    toMinutes (⟨2020, 3, 15, 0⟩ : DateTime) < toMinutes evYearly.event_date := by
  decide

/-- C1 (corrected).  For an active event whose next occurrence is `T` and a
linked recipient with effective lead time `L = leadTimeHours r`, a polling
pass at `now` emits a DueNotification exactly when `now` lies in the OPEN
one-hour interval `(T − L·60min, T − L·60min + 60min)` — moment's default
`isBetween` excludes both endpoints and the window is hard-coded to one hour,
independent of the 15-minute cron poll interval.  In particular a poll at
exactly `T − 24h` emits nothing, and a poll 20 minutes later emits exactly
one notification. -/
theorem matcher_open_one_hour_window (ev : Event) (r : Recipient)
    (now T : DateTime) (hact : ev.active = true)
    (hnext : getNextOccurrence ev now = some T) :
    getEventsNeedingNotification [(ev, [r])] now =
      (if (toMinutes T : Int) - 60 * leadTimeHours r < (toMinutes now : Int) ∧
          (toMinutes now : Int) < (toMinutes T : Int) - 60 * leadTimeHours r + 60 then
        [{ event := ev, recipient := r, eventDate := T,
           notificationLeadTime := leadTimeHours r,
           shouldNotifyAt := (toMinutes T : Int) - 60 * leadTimeHours r }]
      else []) := by
  unfold getEventsNeedingNotification findAllActive
  simp [hact, hnext, List.insertionSort, List.orderedInsert]
  split <;> rename_i hcond
  · simp [List.filterMap_cons, hcond]
  · simp [List.filterMap_cons, hcond]

/-- C1 witness: the window characterization applied at the concrete one-off
event, 20 minutes into the open window. -/
theorem matcher_open_one_hour_window_witness :
    getEventsNeedingNotification [(evOneOff, [rcpt24])] nowLead20 ≠ [] := by
  rw [matcher_open_one_hour_window evOneOff rcpt24 nowLead20 ⟨2025, 6, 10, 720⟩
    rfl (by decide)]
  decide

/-- C1 counterexample: with the occurrence at T = 2025-06-10 12:00 and a
24-hour lead, a poll at exactly `T − 24h` emits NO DueNotification (the claim
demands exactly one), while a poll 20 minutes after `T − 24h` emits exactly
one (the claim demands none). -/
theorem matcher_poll_boundary_cex :
    getEventsNeedingNotification [(evOneOff, [rcpt24])] nowAtLead = [] ∧
    getEventsNeedingNotification [(evOneOff, [rcpt24])] nowLead20 = [dueSample] ∧
    toMinutes nowAtLead + 60 * 24 = toMinutes evOneOff.event_date ∧
    toMinutes nowLead20 = toMinutes nowAtLead + 20 := by
  decide

/-- C6 (corrected).  The occurrence computations themselves do not consult the
`active` flag (see the counterexample); an inactive event is instead excluded
upstream, because every event query runs `Event.findAll` with
`WHERE active = true`.  Consequently every due notification the matcher
pipeline emits originates from an event of the database that is active. -/
theorem inactive_excluded_by_findAll (db : List (Event × List Recipient))
    (now : DateTime) :
    ∀ d ∈ getEventsNeedingNotification db now,
      d.event.active = true ∧ ∃ rs, (d.event, rs) ∈ db := by
  intro d hd
  unfold getEventsNeedingNotification findAllActive at hd
  rw [List.mem_flatMap] at hd
  obtain ⟨p, hp, hd2⟩ := hd
  have hperm := List.perm_insertionSort
    (fun a b : Event × List Recipient =>
      toMinutes a.1.event_date ≤ toMinutes b.1.event_date)
    (List.filter (fun p => p.1.active) db)
  have hp2 : p ∈ List.filter (fun p => p.1.active) db := hperm.mem_iff.mp hp
  rw [List.mem_filter] at hp2
  obtain ⟨hpdb, hpact⟩ := hp2
  rcases hnext : getNextOccurrence p.1 now with _ | next
  · rw [hnext] at hd2
    simp at hd2
  · rw [hnext] at hd2
    rw [List.mem_filterMap] at hd2
    obtain ⟨rr, hrr, heq⟩ := hd2
    dsimp only at heq
    split at heq
    · injection heq with heq2
      subst heq2
      exact ⟨hpact, p.2, hpdb⟩
    · exact absurd heq (by simp)

/-- C6 witness: the emitted sample notification comes from an active event of
the database. -/
theorem inactive_excluded_by_findAll_witness :
    dueSample.event.active = true ∧
      ∃ rs, (dueSample.event, rs) ∈ [(evOneOff, [rcpt24])] :=
  inactive_excluded_by_findAll [(evOneOff, [rcpt24])] nowLead20 dueSample (by decide)

/-- C6 counterexample: an inactive one-off event still yields an occurrence
from `calculateUpcomingOccurrences` and a next occurrence from
`getNextOccurrence` — the computations ignore `active`. -/
theorem inactive_event_occurrences_cex :
    evInactive.active = false ∧
    calculateUpcomingOccurrences evInactive ⟨2025, 6, 1, 0⟩ ⟨2025, 6, 30, 0⟩ 50 ≠ [] ∧
    getNextOccurrence evInactive ⟨2025, 6, 1, 0⟩ ≠ none := by
  decide

theorem sendEmail_ok_of (mailer : Nat → Option String) (i : Nat) (hi : i < 4)
    (hs : mailer i = none) (hf : ∀ j, j < i → mailer j ≠ none) :
    sendEmail true mailer = (Except.ok (i + 1), retryDelays.take i) := by
  have hex : ∀ j, j < i → ∃ e, mailer j = some e := by
    intro j hj
    rcases hm : mailer j with _ | e
    · exact absurd hm (hf j hj)
    · exact ⟨e, rfl⟩
  interval_cases i
  · simp [sendEmail, sendEmailGo, maxRetries, retryDelays, hs]
  · obtain ⟨e0, he0⟩ := hex 0 (by omega)
    simp [sendEmail, sendEmailGo, maxRetries, retryDelays, he0, hs]
  · obtain ⟨e0, he0⟩ := hex 0 (by omega)
    obtain ⟨e1, he1⟩ := hex 1 (by omega)
    simp [sendEmail, sendEmailGo, maxRetries, retryDelays, he0, he1, hs]
  · obtain ⟨e0, he0⟩ := hex 0 (by omega)
    obtain ⟨e1, he1⟩ := hex 1 (by omega)
    obtain ⟨e2, he2⟩ := hex 2 (by omega)
    simp [sendEmail, sendEmailGo, maxRetries, retryDelays, he0, he1, he2, hs]

theorem sendEmail_err_of (mailer : Nat → Option String)
    (hf : ∀ j, j < 4 → mailer j ≠ none) (e : String) (he : mailer 3 = some e) :
    sendEmail true mailer = (Except.error e, [1000, 5000, 15000]) := by
  have hex : ∀ j, j < 4 → ∃ e2, mailer j = some e2 := by
    intro j hj
    rcases hm : mailer j with _ | e2
    · exact absurd hm (hf j hj)
    · exact ⟨e2, rfl⟩
  obtain ⟨e0, he0⟩ := hex 0 (by omega)
  obtain ⟨e1, he1⟩ := hex 1 (by omega)
  obtain ⟨e2, he2⟩ := hex 2 (by omega)
  simp [sendEmail, sendEmailGo, maxRetries, retryDelays, he0, he1, he2, he]

theorem sendEmail_ok_exists_iff (mailer : Nat → Option String) :
    (∃ n, (sendEmail true mailer).1 = Except.ok n) ↔
      ∃ i, i < 4 ∧ mailer i = none := by
  constructor
  · rintro ⟨n, hn⟩
    by_contra hne
    push_neg at hne
    rcases hm : mailer 3 with _ | e
    · exact absurd hm (hne 3 (by omega))
    · rw [sendEmail_err_of mailer hne e hm] at hn
      simp at hn
  · rintro ⟨i, hi, hs⟩
    have hP : ∃ j, mailer j = none := ⟨i, hs⟩
    have hks : mailer (Nat.find hP) = none := Nat.find_spec hP
    have hkmin : ∀ j, j < Nat.find hP → mailer j ≠ none :=
      fun j hj => Nat.find_min hP hj
    have hki : Nat.find hP ≤ i := Nat.find_min' hP hs
    rw [sendEmail_ok_of mailer (Nat.find hP) (by omega) hks hkmin]
    exact ⟨Nat.find hP + 1, rfl⟩

/-- C2 (corrected).  When the mailer fails repeatedly, `sendEmail` makes at
most 4 sequential attempts and sleeps the configured delays in order between
consecutive attempts; but four attempts have only three gaps, so only the
first three delays 1s, 5s, 15s are ever slept (each at most once, in order) —
the fourth configured delay, 60s, is never used.  A success ends the sequence
immediately and the failure of the last attempt is raised to the caller. -/
theorem sendEmail_retry_schedule :
    (∀ mailer : Nat → Option String,
      (∀ j, j < 4 → mailer j ≠ none) → ∀ e, mailer 3 = some e →
        sendEmail true mailer = (Except.error e, [1000, 5000, 15000])) ∧
    (∀ (mailer : Nat → Option String) (i : Nat), i < 4 → mailer i = none →
      (∀ j, j < i → mailer j ≠ none) →
        sendEmail true mailer = (Except.ok (i + 1), retryDelays.take i)) ∧
    (∀ mailer : Nat → Option String,
      (sendEmail true mailer).2.length ≤ 3 ∧
      (sendEmail true mailer).2
        = retryDelays.take (sendEmail true mailer).2.length ∧
      60000 ∉ (sendEmail true mailer).2) := by
  refine ⟨fun mailer hf e he => sendEmail_err_of mailer hf e he,
          fun mailer i hi hs hf => sendEmail_ok_of mailer i hi hs hf, ?_⟩
  intro mailer
  by_cases hex : ∃ j, j < 4 ∧ mailer j = none
  · obtain ⟨i, hi, hs⟩ := hex
    have hP : ∃ j, mailer j = none := ⟨i, hs⟩
    have hks : mailer (Nat.find hP) = none := Nat.find_spec hP
    have hkmin : ∀ j, j < Nat.find hP → mailer j ≠ none :=
      fun j hj => Nat.find_min hP hj
    have hki : Nat.find hP ≤ i := Nat.find_min' hP hs
    rw [sendEmail_ok_of mailer (Nat.find hP) (by omega) hks hkmin]
    have hlen : (retryDelays.take (Nat.find hP)).length = Nat.find hP := by
      rw [List.length_take]
      show min (Nat.find hP) retryDelays.length = Nat.find hP
      have : retryDelays.length = 4 := rfl
      omega
    refine ⟨by rw [hlen]; omega, by rw [hlen], ?_⟩
    have hk3 : Nat.find hP ≤ 3 := by omega
    have h60 : ∀ k, k ≤ 3 → (60000 : Nat) ∉ retryDelays.take k := by
      intro k hk
      interval_cases k <;> decide
    show 60000 ∉ retryDelays.take (Nat.find hP)
    exact h60 (Nat.find hP) hk3
  · push_neg at hex
    rcases hm : mailer 3 with _ | e
    · exact absurd hm (hex 3 (by omega))
    · rw [sendEmail_err_of mailer hex e hm]
      refine ⟨?_, ?_, ?_⟩
      · show ([1000, 5000, 15000] : List Nat).length ≤ 3
        decide
      · show ([1000, 5000, 15000] : List Nat)
            = retryDelays.take ([1000, 5000, 15000] : List Nat).length
        decide
      · show (60000 : Nat) ∉ ([1000, 5000, 15000] : List Nat)
        decide

/-- C2 witness: the all-failures schedule applied to a concrete mailer. -/
theorem sendEmail_retry_schedule_witness :
    sendEmail true failMailer
      = (Except.error "SMTP connection failed", [1000, 5000, 15000]) :=
  sendEmail_retry_schedule.1 failMailer (fun j hj => by simp [failMailer])
    "SMTP connection failed" rfl

/-- C2 counterexample: with a mailer that always fails, the delays slept are
exactly 1s, 5s, 15s — the configured 60s delay is never slept, refuting
"each delay used exactly once". -/
theorem sixty_second_delay_unused_cex :
    (sendEmail true failMailer).2 = [1000, 5000, 15000] ∧
    60000 ∉ (sendEmail true failMailer).2 ∧
    60000 ∈ retryDelays := by
  decide

/-- C3 (confirmed).  Every call to a dispatch operation (sendEventReminder,
sendDailyDigest) writes exactly one history record carrying the final outcome
of the whole retry sequence: status sent exactly when some mailer attempt
(among the at most four made) succeeded, status failed with the raised last
error otherwise; no per-attempt record is written. -/
theorem dispatch_single_history_record :
    ∀ (configured : Bool) (mailer : Nat → Option String) (ev : Event)
      (r : Recipient) (userEmail : String),
      (sendEventReminder configured mailer ev r).2.length = 1 ∧
      (sendDailyDigest configured mailer userEmail).2.length = 1 ∧
      (∀ rec ∈ (sendEventReminder configured mailer ev r).2,
        (rec.status = "sent" ↔ ∃ n, (sendEmail configured mailer).1 = Except.ok n) ∧
        (∀ e, (sendEmail configured mailer).1 = Except.error e →
          rec.status = "failed" ∧ rec.error_message = some e)) ∧
      (∀ rec ∈ (sendDailyDigest configured mailer userEmail).2,
        (rec.status = "sent" ↔ ∃ n, (sendEmail configured mailer).1 = Except.ok n) ∧
        (∀ e, (sendEmail configured mailer).1 = Except.error e →
          rec.status = "failed" ∧ rec.error_message = some e)) ∧
      (configured = true →
        ((∃ n, (sendEmail configured mailer).1 = Except.ok n) ↔
          ∃ i, i < 4 ∧ mailer i = none)) := by
  intro configured mailer ev r userEmail
  rcases hres : (sendEmail configured mailer).1 with e | n
  · refine ⟨?_, ?_, ?_, ?_, ?_⟩
    · simp [sendEventReminder, hres]
    · simp [sendDailyDigest, hres]
    · intro rec hrec
      simp [sendEventReminder, hres] at hrec
      subst hrec
      simp
    · intro rec hrec
      simp [sendDailyDigest, hres] at hrec
      subst hrec
      simp
    · intro hc
      subst hc
      rw [← sendEmail_ok_exists_iff mailer]
      constructor
      · rintro ⟨m, hm⟩
        simp at hm
      · rintro ⟨m, hm⟩
        rw [hres] at hm
        simp at hm
  · refine ⟨?_, ?_, ?_, ?_, ?_⟩
    · simp [sendEventReminder, hres]
    · simp [sendDailyDigest, hres]
    · intro rec hrec
      simp [sendEventReminder, hres] at hrec
      subst hrec
      simp
    · intro rec hrec
      simp [sendDailyDigest, hres] at hrec
      subst hrec
      simp
    · intro hc
      subst hc
      rw [← sendEmail_ok_exists_iff mailer]
      constructor
      · intro hx
        exact ⟨n, hres⟩
      · intro hx
        exact ⟨n, rfl⟩

/-- C3 witness: applied to a mailer that fails three times and succeeds on
attempt 4, the reminder call writes exactly one record, and the success
characterization is inhabited. -/
theorem dispatch_single_history_record_witness :
    (sendEventReminder true lateMailer evOneOff rcpt24).2.length = 1 ∧
    ((∃ n, (sendEmail true lateMailer).1 = Except.ok n) ↔
      ∃ i, i < 4 ∧ lateMailer i = none) := by
  have h := dispatch_single_history_record true lateMailer evOneOff rcpt24
    "user@example.com"
  exact ⟨h.1, h.2.2.2.2 rfl⟩

/-- C5 (corrected).  The scheduler has no reentrancy guard: the cron callbacks
invoke the job bodies unconditionally, so a tick always starts one more
invocation of its job class regardless of how many are still in flight, and
`n` ticks without an intervening finish leave `n` overlapping invocations. -/
theorem scheduler_tick_always_starts :
    (∀ (s : String → Nat) (j : String),
      schedStep s (SchedEvent.tick j) j = s j + 1) ∧
    (∀ (n : Nat) (j : String),
      schedRun (List.replicate n (SchedEvent.tick j)) j = n) := by
  have hstep : ∀ (s : String → Nat) (j : String),
      schedStep s (SchedEvent.tick j) j = s j + 1 := by
    intro s j
    unfold schedStep
    simp
  refine ⟨hstep, ?_⟩
  have haux : ∀ (n : Nat) (j : String) (s : String → Nat),
      List.foldl schedStep s (List.replicate n (SchedEvent.tick j)) j = s j + n := by
    intro n
    induction n with
    | zero => intro j s; simp
    | succ k ih =>
      intro j s
      rw [List.replicate_succ, List.foldl_cons, ih, hstep]
      omega
  intro n j
  unfold schedRun
  rw [haux]
  omega

/-- C5 counterexample: two consecutive timer ticks of the reminder-check job
with no finish in between leave two overlapping invocations in flight — the
claimed skip of the second tick does not happen. -/
theorem scheduler_overlapping_ticks_cex :
    schedRun [SchedEvent.tick "notifications", SchedEvent.tick "notifications"]
        "notifications" = 2 ∧
    ¬ (schedRun [SchedEvent.tick "notifications", SchedEvent.tick "notifications"]
        "notifications" ≤ 1) := by
  decide

/-- C9 (confirmed).  `validateRecurrenceSettings` accepts exactly the
well-formed recurrence definitions — type one_off, type yearly, or type
custom_interval with a present value in [1, 1000] and a unit among days,
months, years — and every rejected input carries an error message.  The
function is a total function of its inputs: it never raises. -/
theorem validateRecurrenceSettings_characterization :
    ∀ (t : String) (v : Option Int) (u : Option String),
      ((validateRecurrenceSettings t v u).1 = true ↔
        (t = "one_off" ∨ t = "yearly" ∨
          (t = "custom_interval" ∧ (∃ x, v = some x ∧ 1 ≤ x ∧ x ≤ 1000) ∧
            (u = some "days" ∨ u = some "months" ∨ u = some "years")))) ∧
      ((validateRecurrenceSettings t v u).1 = false →
        ∃ msg, (validateRecurrenceSettings t v u).2 = some msg) := by
  intro t v u
  by_cases h1 : t = "one_off"
  · subst h1
    simp [validateRecurrenceSettings]
  · by_cases h2 : t = "yearly"
    · subst h2
      simp [validateRecurrenceSettings]
    · by_cases h3 : t = "custom_interval"
      · subst h3
        rcases v with _ | x
        · have hres : validateRecurrenceSettings "custom_interval" none u
              = (false, some "Custom interval requires both value and unit") := by
            unfold validateRecurrenceSettings
            rfl
          rw [hres]
          refine ⟨?_, fun _ => ⟨_, rfl⟩⟩
          simp
        · rcases u with _ | sr
          · have hres : validateRecurrenceSettings "custom_interval" (some x) none
                = (false, some "Custom interval requires both value and unit") := by
              unfold validateRecurrenceSettings
              simp [truthyStr]
            rw [hres]
            refine ⟨?_, fun _ => ⟨_, rfl⟩⟩
            simp
          · by_cases hx0 : x = 0
            · subst hx0
              have hres : validateRecurrenceSettings "custom_interval" (some 0) (some sr)
                  = (false, some "Custom interval requires both value and unit") := by
                unfold validateRecurrenceSettings
                rfl
              rw [hres]
              refine ⟨?_, fun _ => ⟨_, rfl⟩⟩
              simp
            · by_cases hs0 : sr = ""
              · subst hs0
                have hres : validateRecurrenceSettings "custom_interval" (some x) (some "")
                    = (false, some "Custom interval requires both value and unit") := by
                  unfold validateRecurrenceSettings
                  have hA : ((x != 0) && ("" != "")) = false := by simp
                  rw [show ((match some x with
                      | none => false
                      | some v => v != 0) && truthyStr (some "")) = false from hA]
                  rfl
                rw [hres]
                refine ⟨?_, fun _ => ⟨_, rfl⟩⟩
                simp
              · have hA : ((match some x with
                    | none => false
                    | some v => v != 0) && truthyStr (some sr)) = true := by
                  simp [truthyStr, hx0, hs0]
                by_cases hrange : (x < 1 ∨ x > 1000)
                · have hres : validateRecurrenceSettings "custom_interval" (some x) (some sr)
                      = (false, some "Recurrence value must be between 1 and 1000") := by
                    unfold validateRecurrenceSettings
                    rw [show ((match some x with
                        | none => false
                        | some v => v != 0) && truthyStr (some sr)) = true from hA]
                    rw [if_neg (by decide : ¬((!true) = true))]
                    simp only [Option.getD_some]
                    rw [if_pos hrange]
                    rfl
                  rw [hres]
                  refine ⟨?_, fun _ => ⟨_, rfl⟩⟩
                  simp
                  intro x2 h
                  omega
                · by_cases hcont : sr = "days" ∨ sr = "months" ∨ sr = "years"
                  · have hcontB : (["days", "months", "years"].contains sr) = true := by
                      rcases hcont with hc | hc | hc <;> subst hc <;> decide
                    have hres : validateRecurrenceSettings "custom_interval" (some x) (some sr)
                        = (true, none) := by
                      unfold validateRecurrenceSettings
                      rw [show ((match some x with
                          | none => false
                          | some v => v != 0) && truthyStr (some sr)) = true from hA]
                      rw [if_neg (by decide : ¬((!true) = true))]
                      simp only [Option.getD_some]
                      rw [if_neg hrange]
                      rw [if_neg (show ¬((! (["days", "months", "years"].contains sr)) = true)
                        from by rw [hcontB]; decide)]
                      rfl
                    rw [hres]
                    constructor
                    · constructor
                      · intro hconst2
                        refine Or.inr (Or.inr ⟨rfl, ⟨x, rfl, by omega, by omega⟩, ?_⟩)
                        rcases hcont with hc | hc | hc <;> subst hc <;> simp
                      · intro hconst2
                        rfl
                    · intro hfalse
                      simp at hfalse
                  · have hcontB : (["days", "months", "years"].contains sr) = false := by
                      simpa using hcont
                    have hres : validateRecurrenceSettings "custom_interval" (some x) (some sr)
                        = (false, some "Recurrence unit must be days, months, or years") := by
                      unfold validateRecurrenceSettings
                      rw [show ((match some x with
                          | none => false
                          | some v => v != 0) && truthyStr (some sr)) = true from hA]
                      rw [if_neg (by decide : ¬((!true) = true))]
                      simp only [Option.getD_some]
                      rw [if_neg hrange]
                      rw [if_pos (show (! (["days", "months", "years"].contains sr)) = true
                        from by rw [hcontB]; decide)]
                      rfl
                    rw [hres]
                    constructor
                    · constructor
                      · intro hfalse
                        simp at hfalse
                      · intro hrhs
                        exfalso
                        rcases hrhs with h | h | h
                        · exact absurd h (by decide)
                        · exact absurd h (by decide)
                        · obtain ⟨h31, h32, h33⟩ := h
                          rcases h33 with hc | hc | hc <;> injection hc with hc2
                          · exact hcont (Or.inl hc2)
                          · exact hcont (Or.inr (Or.inl hc2))
                          · exact hcont (Or.inr (Or.inr hc2))
                    · intro hfalse2
                      exact ⟨_, rfl⟩
      · have hne1 : (t == "one_off") = false := by simp [h1]
        have hne2 : (t == "yearly") = false := by simp [h2]
        have hne3 : (t == "custom_interval") = false := by simp [h3]
        simp [validateRecurrenceSettings, hne1, hne2, hne3, h1, h2, h3]

/-- C9 witness: a custom interval with value 2000 is rejected with an error
message. -/
theorem validateRecurrenceSettings_characterization_witness :
    ∃ msg, (validateRecurrenceSettings "custom_interval" (some 2000)
      (some "days")).2 = some msg :=
  (validateRecurrenceSettings_characterization "custom_interval" (some 2000)
    (some "days")).2 (by decide)

/-- C10 (confirmed).  `sendImmediateEventNotification` returns counts with
sent + failed equal to the number of recipients; when the email service is
not configured it attempts nothing and returns (0, recipients.length); and
each recipient is counted independently — the sent count is the number of
recipients whose own send succeeds and the failed count the number whose send
fails, so one recipient's failure never prevents the others' attempts. -/
theorem sendImmediate_counts :
    ∀ (configured : Bool) (outcome : Recipient → Bool) (nt : String)
      (rs : List Recipient),
      (sendImmediateEventNotification configured outcome nt rs).1 +
        (sendImmediateEventNotification configured outcome nt rs).2 = rs.length ∧
      (configured = false →
        sendImmediateEventNotification configured outcome nt rs = (0, rs.length)) ∧
      (configured = true →
        sendImmediateEventNotification configured outcome nt rs =
          ((rs.filter (immediateOk outcome nt)).length,
           (rs.filter (fun r => !(immediateOk outcome nt r))).length)) := by
  have haux : ∀ (outcome : Recipient → Bool) (nt : String)
      (rs : List Recipient) (acc : Nat × Nat),
      rs.foldl (fun acc r =>
        let ok := if nt == "event_created" then outcome r
          else if nt == "event_cancelled" then outcome r
          else true
        if ok then (acc.1 + 1, acc.2) else (acc.1, acc.2 + 1)) acc
      = (acc.1 + (rs.filter (immediateOk outcome nt)).length,
         acc.2 + (rs.filter (fun r => !(immediateOk outcome nt r))).length) := by
    intro outcome nt rs
    induction rs with
    | nil => intro acc; simp
    | cons a l ih =>
      intro acc
      rw [List.foldl_cons, ih]
      cases hok : (if nt == "event_created" then outcome a
          else if nt == "event_cancelled" then outcome a else true)
      · have him : immediateOk outcome nt a = false := hok
        simp [hok, him, List.filter_cons]
        omega
      · have him : immediateOk outcome nt a = true := hok
        simp [hok, him, List.filter_cons]
        omega
  intro configured outcome nt rs
  cases configured
  · refine ⟨?_, fun _ => rfl, fun hc => absurd hc (by decide)⟩
    show 0 + rs.length = rs.length
    omega
  · have hrun : sendImmediateEventNotification true outcome nt rs =
        ((rs.filter (immediateOk outcome nt)).length,
         (rs.filter (fun r => !(immediateOk outcome nt r))).length) := by
      show rs.foldl _ (0, 0) = _
      rw [haux]
      simp
    refine ⟨?_, fun hc => absurd hc (by decide), fun _ => hrun⟩
    rw [hrun]
    have hpart : ∀ (p : Recipient → Bool) (l : List Recipient),
        (l.filter p).length + (l.filter (fun r => !(p r))).length = l.length := by
      intro p l
      induction l with
      | nil => simp
      | cons a l2 ih =>
        cases hp : p a <;> simp [List.filter_cons, hp] <;> omega
    exact hpart (immediateOk outcome nt) rs

/-- C10 witness: with the mailer unconfigured, one recipient yields counts
(0, 1) with no attempt made. -/
theorem sendImmediate_counts_witness :
    sendImmediateEventNotification false (fun _ => true) "event_created" [rcpt24]
      = (0, 1) := by
  have h := sendImmediate_counts false (fun _ => true) "event_created" [rcpt24]
  exact h.2.1 rfl

end DailyReminder
